import Mathlib

/-!
Shallow embedding of nsjail's command-line parsing core (src/cmdline.c)
and proofs about the claims of the specification.

The embedding follows the C source function by function:
* `cmdlineSplitStrByColon` — the in-place colon splitter (the C function
  returns the original pointer when no colon is present; we model that
  sentinel as `none` for the tail).
* `cmdlineIsANumber` — accepts strings consisting of decimal digits and `x`.
* `strtoull`/`strtoul`/`strtol` — base-0 C numeric parsing, with the range
  flag standing for `errno == ERANGE` set by this call (stale `errno` from
  unrelated earlier calls is not modelled).
* `cmdlineParseRLimit` — resolves `max`/`def`/numeric rlimit tokens against
  the live soft/hard ceilings supplied by the environment model.
* `cmdlineParseUid`/`cmdlineParseGid` — identity resolution with
  name-database-first lookup and numeric fallback.
* `cmdlineParse` — the dispatch loop over recognized options, the implicit
  mount-table insertions and the final validation.
External effects (getuid, getpwnam, prlimit64, log initialisation, getopt's
lexing of the raw argv into recognized/unknown options) are parameters of
the model (`Env`, `Token`).
-/

namespace Nsjail

/-- 2^64, the modulus of `unsigned long long` arithmetic. -/
def U64 : Nat := 18446744073709551616

/-- 2^32, the modulus of `uid_t`/`gid_t` arithmetic. -/
def U32 : Nat := 4294967296

/-- C `isdigit` on ASCII: codes 48..57. -/
def isDigitChar (c : Char) : Bool := decide (48 ≤ c.toNat ∧ c.toNat ≤ 57)

/-- C `isspace` on ASCII: space and the five control whitespace characters. -/
def isSpaceChar (c : Char) : Bool :=
  decide (c.toNat = 32 ∨ (9 ≤ c.toNat ∧ c.toNat ≤ 13))

/-- Value of a hexadecimal digit character, if it is one. -/
def hexVal (c : Char) : Option Nat :=
  if 48 ≤ c.toNat ∧ c.toNat ≤ 57 then some (c.toNat - 48)
  else if 97 ≤ c.toNat ∧ c.toNat ≤ 102 then some (c.toNat - 87)
  else if 65 ≤ c.toNat ∧ c.toNat ≤ 70 then some (c.toNat - 55)
  else none

/-- Digit value in a given base (digits ≥ the base are not digits). -/
def digitVal (base : Nat) (c : Char) : Option Nat :=
  match hexVal c with
  | some d => if d < base then some d else none
  | none => none

/-- Accumulate the longest prefix of valid digits in the given base,
exactly as the C `strtoull` digit loop does (it stops at the first
non-digit and ignores the rest of the string). -/
def parseUnsigned (base : Nat) : List Char → Nat → Nat
  | [], acc => acc
  | c :: cs, acc =>
    match digitVal base c with
    | some d => parseUnsigned base cs (acc * base + d)
    | none => acc

/-- strtoull's sign handling: one optional leading `-` or `+`. -/
def signSplit : List Char → Bool × List Char
  | [] => (false, [])
  | c :: r => if c = '-' then (true, r) else if c = '+' then (false, r) else (false, c :: r)

/-- Base-0 digit-sequence interpretation of C strtoul/strtoull/strtol:
`0x`/`0X` prefix means hexadecimal (only when a hex digit follows the
prefix, otherwise just the `0` is consumed), a leading `0` means octal,
anything else decimal. -/
def natOfCStr : List Char → Nat
  | [] => 0
  | c0 :: rest =>
    if c0 = '0' then
      match rest with
      | [] => 0
      | c1 :: r2 =>
        if c1 = 'x' ∨ c1 = 'X' then
          if ((r2.head?).bind hexVal).isSome then parseUnsigned 16 r2 0 else 0
        else parseUnsigned 8 rest 0
    else parseUnsigned 10 (c0 :: rest) 0

/-- `strtoull(s, NULL, 0)`. Returns the converted value together with a
flag that is `true` exactly when the conversion overflowed (the C call
returns `ULLONG_MAX` and sets `errno = ERANGE`). A negative input is
accepted and negated modulo 2^64, as in C. -/
def strtoull (s : String) : Nat × Bool :=
  let cs := s.toList.dropWhile isSpaceChar
  let p := signSplit cs
  let v := natOfCStr p.2
  if U64 ≤ v then (U64 - 1, true)
  else if p.1 then ((U64 - v) % U64, false) else (v, false)

/-- `strtoul(s, NULL, 0)` on LP64 (callers in cmdline.c ignore `errno`). -/
def strtoul (s : String) : Nat := (strtoull s).1

/-- `strtol(s, NULL, 0)` on LP64, clamped to `[LONG_MIN, LONG_MAX]`. -/
def strtol (s : String) : Int :=
  let cs := s.toList.dropWhile isSpaceChar
  let p := signSplit cs
  let v := natOfCStr p.2
  if p.1 then (if 9223372036854775808 ≤ v then -9223372036854775808 else -(v : Int))
  else (if 9223372036854775808 ≤ v then 9223372036854775807 else (v : Int))

/-- Truncating cast of a C `long` value to `int` (two's complement). -/
def castCInt (i : Int) : Int :=
  let m := i % 4294967296
  if m < 2147483648 then m else m - 4294967296

/-- `cmdlineIsANumber`: every character must be a decimal digit or the
letter `x` (the C loop advances the pointer `s` each iteration while `i`
stays 0, so it inspects each character once). Note that hexadecimal
letter digits `a`-`f` are NOT accepted. -/
def cmdlineIsANumber (s : String) : Bool :=
  s.toList.all (fun c => isDigitChar c || c = 'x')

/-- Core of `cmdlineSplitStrByColon` on character lists: everything before
the first colon, and — when a colon is present — everything after it.
`none` for the second component models the C function returning the
original `spec` pointer (tail aliases head: no second part given). -/
def splitCore : List Char → List Char × Option (List Char)
  | [] => ([], none)
  | c :: rest =>
    if c = ':' then ([], some rest)
    else
      let p := splitCore rest
      (c :: p.1, p.2)

/-- `cmdlineSplitStrByColon`. -/
def cmdlineSplitStrByColon (s : String) : String × Option String :=
  let p := splitCore s.toList
  (String.mk p.1, p.2.map String.mk)

/-- ASCII lower-casing, as C `tolower` in the default locale. -/
def toLowerAscii (c : Char) : Char :=
  if 65 ≤ c.toNat ∧ c.toNat ≤ 90 then Char.ofNat (c.toNat + 32) else c

/-- `strcasecmp(a, b) == 0`. -/
def strcaseeq (a b : String) : Bool :=
  a.toList.map toLowerAscii == b.toList.map toLowerAscii

/-- Linux resource numbers used by cmdline.c. -/
def RLIMIT_CPU : Nat := 0
def RLIMIT_FSIZE : Nat := 1
def RLIMIT_STACK : Nat := 3
def RLIMIT_CORE : Nat := 4
def RLIMIT_NPROC : Nat := 6
def RLIMIT_NOFILE : Nat := 7
def RLIMIT_AS : Nat := 9

/-- Mount flag bits from `<sys/mount.h>`. -/
def MS_RDONLY : Nat := 1
def MS_BIND : Nat := 4096
def MS_REC : Nat := 16384

/-- Personality bits from `<sys/personality.h>`. -/
def ADDR_COMPAT_LAYOUT : Nat := 2097152
def MMAP_PAGE_ZERO : Nat := 1048576
def READ_IMPLIES_EXEC : Nat := 4194304
def ADDR_LIMIT_3GB : Nat := 134217728
def ADDR_NO_RANDOMIZE : Nat := 262144

/-- The operating environment consulted by the parser: invoking uid/gid,
the user and group name databases, the live rlimit ceilings
(`prlimit64`: soft then hard, `none` for a query failure), and whether
log-file initialisation (out of scope here) succeeds. -/
structure Env where
  getuid : Nat
  getgid : Nat
  passwd : List (String × Nat)
  groups : List (String × Nat)
  rlimits : Nat → Option (Nat × Nat)
  logInitOk : Bool

/-- First entry of a name database matching a name (`getpwnam`/`getgrnam`). -/
def lookupDb : List (String × Nat) → String → Option Nat
  | [], _ => none
  | (n, v) :: rest, name => if n = name then some v else lookupDb rest name

/-- `cmdlineParseRLimit`: query the live (soft, hard) pair, then resolve
`max` (case-insensitively) to the hard ceiling, `def` to the soft
ceiling, and otherwise require a `cmdlineIsANumber` token, convert it
with `strtoull` and multiply by `mul` in 64-bit arithmetic. `.error ()`
stands for the fatal `PLOG_F`/`LOG_F` paths. The final check mirrors
`val == ULLONG_MAX && errno != 0` with `errno` set by this `strtoull`. -/
def cmdlineParseRLimit (env : Env) (res : Nat) (optarg : String) (mul : Nat) :
    Except Unit Nat :=
  match env.rlimits res with
  | none => .error ()
  | some cur =>
    if strcaseeq optarg "max" then .ok cur.2
    else if strcaseeq optarg "def" then .ok cur.1
    else if cmdlineIsANumber optarg = false then .error ()
    else
      let p := strtoull optarg
      let val := p.1 * mul % U64
      if val = U64 - 1 ∧ p.2 = true then .error ()
      else .ok val

/-- Execution modes (`enum mode_t`). -/
inductive Mode where
  | listenTcp
  | standaloneOnce
  | standaloneExecve
  | standaloneRerun
deriving DecidableEq, Repr

/-- The options string of a mount entry: either a literal string, or the
shared `cmdlineTmpfsSz` buffer (the C code stores the same pointer into
every `--tmpfsmount` entry, so they all observe the buffer's final
contents). -/
inductive MntOptions where
  | lit (s : String)
  | sharedTmpfsSz
deriving DecidableEq, Repr

/-- One entry of `struct mounts_t`. -/
structure Mount where
  src : Option String
  dst : String
  fs_type : String
  flags : Nat
  options : MntOptions
deriving DecidableEq, Repr

/-- The string a mount entry's options pointer denotes once parsing is
done, given the final contents of the shared tmpfs-size buffer. -/
def renderOptions (tmpfsBuf : String) : MntOptions → String
  | .lit s => s
  | .sharedTmpfsSz => tmpfsBuf

/-- One entry of `struct mapping_t` (all three parts kept as raw tokens). -/
structure Mapping where
  inside_id : String
  outside_id : String
  count : String
deriving DecidableEq, Repr

/-- `struct nsjconf_t`, restricted to the fields cmdline.c writes, plus
the function-local parsing state of `cmdlineParse` (the `user`, `group`
and `logfile` locals and the static `cmdlineTmpfsSz` buffer). -/
structure Nsjconf where
  hostname : String
  cwd : String
  chroot : Option String
  port : Nat
  bindhost : String
  daemonize : Bool
  tlimit : Int
  apply_sandbox : Bool
  pivot_root_only : Bool
  verbose : Bool
  keep_env : Bool
  keep_caps : Bool
  disable_no_new_privs : Bool
  rl_as : Nat
  rl_core : Nat
  rl_cpu : Nat
  rl_fsize : Nat
  rl_nofile : Nat
  rl_nproc : Nat
  rl_stack : Nat
  personality : Nat
  clone_newnet : Bool
  clone_newuser : Bool
  clone_newns : Bool
  clone_newpid : Bool
  clone_newipc : Bool
  clone_newuts : Bool
  clone_newcgroup : Bool
  mode : Mode
  is_root_rw : Bool
  is_silent : Bool
  skip_setsid : Bool
  inside_uid : Nat
  inside_gid : Nat
  outside_uid : Nat
  outside_gid : Nat
  max_conns_per_ip : Nat
  tmpfs_size : Nat
  mount_proc : Bool
  cgroup_mem_mount : String
  cgroup_mem_parent : String
  cgroup_mem_max : Nat
  iface_no_lo : Bool
  iface : Option String
  iface_vs_ip : String
  iface_vs_nm : String
  iface_vs_gw : String
  envs : List String
  mountpts : List Mount
  open_fds : List Int
  uid_mappings : List Mapping
  gid_mappings : List Mapping
  userArg : Option String
  groupArg : Option String
  logfileArg : Option String
  tmpfsBuf : String
deriving DecidableEq, Repr

/-- Resolution of one identity token: name-database lookup first, then the
numeric fallback guarded by `cmdlineIsANumber`, cast to the 32-bit
`uid_t`/`gid_t`. `none` is the fatal `LOG_E("No such user/group")` path.
This is the body both `cmdlineParseUid` and `cmdlineParseGid` repeat for
each side of the specifier. -/
def resolveIdTok (db : List (String × Nat)) (tok : String) : Option Nat :=
  match lookupDb db tok with
  | some v => some v
  | none => if cmdlineIsANumber tok then some ((strtoull tok).1 % U32) else none

/-- `cmdlineParseUid`: split on the first colon, resolve the head into
`inside_uid`; when the tail aliases the head (no colon) return, otherwise
resolve the tail into `outside_uid`. -/
def cmdlineParseUid (db : List (String × Nat)) (conf : Nsjconf) :
    Option String → Option Nsjconf
  | none => some conf
  | some s =>
    let p := cmdlineSplitStrByColon s
    match resolveIdTok db p.1 with
    | none => none
    | some u =>
      let conf1 := { conf with inside_uid := u }
      match p.2 with
      | none => some conf1
      | some second =>
        match resolveIdTok db second with
        | none => none
        | some v => some { conf1 with outside_uid := v }

/-- `cmdlineParseGid`, identical to `cmdlineParseUid` over the group
database and gid fields. -/
def cmdlineParseGid (db : List (String × Nat)) (conf : Nsjconf) :
    Option String → Option Nsjconf
  | none => some conf
  | some s =>
    let p := cmdlineSplitStrByColon s
    match resolveIdTok db p.1 with
    | none => none
    | some u =>
      let conf1 := { conf with inside_gid := u }
      match p.2 with
      | none => some conf1
      | some second =>
        match resolveIdTok db second with
        | none => none
        | some v => some { conf1 with outside_gid := v }

/-- One recognized occurrence in the `getopt_long` stream. `unknownFlag`
is what getopt reports (as `'?'`) for an unrecognized option; the switch
cannot distinguish it from an explicit `-h`/`-?`. -/
inductive Token where
  | hostname (v : String)
  | cwd (v : String)
  | chroot (v : String)
  | port (v : String)
  | bindhost (v : String)
  | maxConns (v : String)
  | user (v : String)
  | group (v : String)
  | logOpt (v : String)
  | daemon
  | verbose
  | keepEnv
  | timeLimit (v : String)
  | help
  | unknownFlag
  | rlimitAs (v : String)
  | rlimitCore (v : String)
  | rlimitCpu (v : String)
  | rlimitFsize (v : String)
  | rlimitNofile (v : String)
  | rlimitNproc (v : String)
  | rlimitStack (v : String)
  | personaAddrCompat
  | personaMmapPageZero
  | personaReadImpliesExec
  | personaAddrLimit3gb
  | personaAddrNoRandomize
  | disableCloneNewnet
  | disableCloneNewuser
  | disableCloneNewns
  | disableCloneNewpid
  | disableCloneNewipc
  | disableCloneNewuts
  | enableCloneNewcgroup
  | keepCaps
  | silent
  | disableSandbox
  | skipSetsid
  | passFd (v : String)
  | disableNoNewPrivs
  | pivotRootOnly
  | rw
  | tmpfsSize (v : String)
  | disableProc
  | envVar (v : String)
  | uidMapping (v : String)
  | gidMapping (v : String)
  | bindmountRo (v : String)
  | bindmount (v : String)
  | tmpfsMount (v : String)
  | modeOpt (v : String)
  | ifaceNoLo
  | iface (v : String)
  | ifaceVsIp (v : String)
  | ifaceVsNm (v : String)
  | ifaceVsGw (v : String)
  | cgroupMemMax (v : String)
  | cgroupMemMount (v : String)
  | cgroupMemParent (v : String)

/-- The `'U'`/`'G'` body: two colon splits over the argument, every part
kept as an opaque token (aliasing parts share the same text). -/
def parseMapArg (v : String) : Mapping :=
  let p1 := cmdlineSplitStrByColon v
  match p1.2 with
  | none => { inside_id := p1.1, outside_id := p1.1, count := p1.1 }
  | some r =>
    let p2 := cmdlineSplitStrByColon r
    match p2.2 with
    | none => { inside_id := p1.1, outside_id := r, count := r }
    | some cnt => { inside_id := p1.1, outside_id := p2.1, count := cnt }

/-- The `'R'`/`'B'` body: source before the colon, destination after it
(destination aliasing source when no colon was given). -/
def bindEntry (v : String) (flags : Nat) : Mount :=
  let p := cmdlineSplitStrByColon v
  { src := some p.1, dst := p.2.getD p.1, fs_type := "", flags := flags,
    options := .lit "" }

/-- The `'T'` body: anonymous tmpfs onto the given destination, options
pointing at the shared size buffer. -/
def tmpfsEntry (v : String) : Mount :=
  { src := none, dst := v, fs_type := "tmpfs", flags := 0,
    options := .sharedTmpfsSz }

/-- The `/proc` entry prepended when `mount_proc` is still enabled. -/
def procEntry : Mount :=
  { src := none, dst := "/proc", fs_type := "proc", flags := 0, options := .lit "" }

/-- The root-establishing entry prepended last (hence ending up first):
a recursive bind of the chroot source onto `/` when one was given,
otherwise an anonymous tmpfs onto `/`; read-only unless `--rw` was set. -/
def rootEntryOf (chroot : Option String) (rootRw : Bool) : Mount :=
  match chroot with
  | some c =>
    { src := some c, dst := "/", fs_type := "",
      flags := if rootRw then Nat.lor MS_BIND MS_REC
               else Nat.lor (Nat.lor MS_BIND MS_REC) MS_RDONLY,
      options := .lit "" }
  | none =>
    { src := none, dst := "/", fs_type := "tmpfs",
      flags := if rootRw then 0 else Nat.lor 0 MS_RDONLY,
      options := .lit "" }

/-- Outcome of one dispatch step: continue with an updated state, leave
the process via `exit`, or abort fatally (`LOG_F`). -/
inductive StepResult where
  | next (st : Nsjconf)
  | exited (code : Nat)
  | fatal
deriving DecidableEq, Repr

/-- The `'M'` case: dispatch on the first character of the argument; an
unsupported letter logs the supported set and calls `cmdlineUsage`,
which exits with status 0 (the `return false` after it is unreachable). -/
def modeStep (st : Nsjconf) (v : String) : StepResult :=
  match v.toList.head? with
  | some 'l' => .next { st with mode := .listenTcp }
  | some 'o' => .next { st with mode := .standaloneOnce }
  | some 'e' => .next { st with mode := .standaloneExecve }
  | some 'r' => .next { st with mode := .standaloneRerun }
  | _ => .exited 0

/-- One iteration of the `getopt_long` switch in `cmdlineParse`. -/
def processToken (env : Env) (st : Nsjconf) : Token → StepResult
  | .hostname v => .next { st with hostname := v }
  | .cwd v => .next { st with cwd := v }
  | .chroot v => .next { st with chroot := some v }
  | .port v => .next { st with port := strtoul v, mode := .listenTcp }
  | .bindhost v => .next { st with bindhost := v }
  | .maxConns v => .next { st with max_conns_per_ip := strtoul v }
  | .user v => .next { st with userArg := some v }
  | .group v => .next { st with groupArg := some v }
  | .logOpt v => .next { st with logfileArg := some v }
  | .daemon => .next { st with daemonize := true }
  | .verbose => .next { st with verbose := true }
  | .keepEnv => .next { st with keep_env := true }
  | .timeLimit v => .next { st with tlimit := strtol v }
  | .help => .exited 0
  | .unknownFlag => .exited 0
  | .rlimitAs v =>
    match cmdlineParseRLimit env RLIMIT_AS v 1048576 with
    | .ok x => .next { st with rl_as := x }
    | .error _ => .fatal
  | .rlimitCore v =>
    match cmdlineParseRLimit env RLIMIT_CORE v 1048576 with
    | .ok x => .next { st with rl_core := x }
    | .error _ => .fatal
  | .rlimitCpu v =>
    match cmdlineParseRLimit env RLIMIT_CPU v 1 with
    | .ok x => .next { st with rl_cpu := x }
    | .error _ => .fatal
  | .rlimitFsize v =>
    match cmdlineParseRLimit env RLIMIT_FSIZE v 1048576 with
    | .ok x => .next { st with rl_fsize := x }
    | .error _ => .fatal
  | .rlimitNofile v =>
    match cmdlineParseRLimit env RLIMIT_NOFILE v 1 with
    | .ok x => .next { st with rl_nofile := x }
    | .error _ => .fatal
  | .rlimitNproc v =>
    match cmdlineParseRLimit env RLIMIT_NPROC v 1 with
    | .ok x => .next { st with rl_nproc := x }
    | .error _ => .fatal
  | .rlimitStack v =>
    match cmdlineParseRLimit env RLIMIT_STACK v 1048576 with
    | .ok x => .next { st with rl_stack := x }
    | .error _ => .fatal
  | .personaAddrCompat =>
    .next { st with personality := Nat.lor st.personality ADDR_COMPAT_LAYOUT }
  | .personaMmapPageZero =>
    .next { st with personality := Nat.lor st.personality MMAP_PAGE_ZERO }
  | .personaReadImpliesExec =>
    .next { st with personality := Nat.lor st.personality READ_IMPLIES_EXEC }
  | .personaAddrLimit3gb =>
    .next { st with personality := Nat.lor st.personality ADDR_LIMIT_3GB }
  | .personaAddrNoRandomize =>
    .next { st with personality := Nat.lor st.personality ADDR_NO_RANDOMIZE }
  | .disableCloneNewnet => .next { st with clone_newnet := false }
  | .disableCloneNewuser => .next { st with clone_newuser := false }
  | .disableCloneNewns => .next { st with clone_newns := false }
  | .disableCloneNewpid => .next { st with clone_newpid := false }
  | .disableCloneNewipc => .next { st with clone_newipc := false }
  | .disableCloneNewuts => .next { st with clone_newuts := false }
  | .enableCloneNewcgroup => .next { st with clone_newcgroup := true }
  | .keepCaps => .next { st with keep_caps := true }
  | .silent => .next { st with is_silent := true }
  | .disableSandbox => .next { st with apply_sandbox := false }
  | .skipSetsid => .next { st with skip_setsid := true }
  | .passFd v =>
    .next { st with open_fds := castCInt (strtol v) :: st.open_fds }
  | .disableNoNewPrivs => .next { st with disable_no_new_privs := true }
  | .pivotRootOnly => .next { st with pivot_root_only := true }
  | .rw => .next { st with is_root_rw := true }
  | .tmpfsSize v =>
    .next { st with tmpfs_size := (strtoull v).1,
                    tmpfsBuf := "size=" ++ toString (strtoull v).1 }
  | .disableProc => .next { st with mount_proc := false }
  | .envVar v => .next { st with envs := st.envs ++ [v] }
  | .uidMapping v =>
    .next { st with uid_mappings := st.uid_mappings ++ [parseMapArg v] }
  | .gidMapping v =>
    .next { st with gid_mappings := st.gid_mappings ++ [parseMapArg v] }
  | .bindmountRo v =>
    .next { st with mountpts :=
      st.mountpts ++ [bindEntry v (Nat.lor (Nat.lor MS_BIND MS_REC) MS_RDONLY)] }
  | .bindmount v =>
    .next { st with mountpts := st.mountpts ++ [bindEntry v (Nat.lor MS_BIND MS_REC)] }
  | .tmpfsMount v =>
    .next { st with mountpts := st.mountpts ++ [tmpfsEntry v] }
  | .modeOpt v => modeStep st v
  | .ifaceNoLo => .next { st with iface_no_lo := true }
  | .iface v => .next { st with iface := some v }
  | .ifaceVsIp v => .next { st with iface_vs_ip := v }
  | .ifaceVsNm v => .next { st with iface_vs_nm := v }
  | .ifaceVsGw v => .next { st with iface_vs_gw := v }
  | .cgroupMemMax v => .next { st with cgroup_mem_max := (strtoull v).1 }
  | .cgroupMemMount v => .next { st with cgroup_mem_mount := v }
  | .cgroupMemParent v => .next { st with cgroup_mem_parent := v }

/-- The `for (;;)` dispatch loop. -/
def runTokens (env : Env) (st : Nsjconf) : List Token → StepResult
  | [] => .next st
  | t :: ts =>
    match processToken env st t with
    | .next st2 => runTokens env st2 ts
    | r => r

/-- The defaults set by the designated initializer at the top of
`cmdlineParse` (fields missing from the initializer are zero, hence
`keep_env = false`), the list initialisations, and the three standard
descriptors head-inserted into `open_fds` (so the list reads 2,1,0). -/
def initConf (env : Env) (rlNproc rlStack : Nat) : Nsjconf :=
  { hostname := "NSJAIL"
    cwd := "/"
    chroot := none
    port := 0
    bindhost := "::"
    daemonize := false
    tlimit := 0
    apply_sandbox := true
    pivot_root_only := false
    verbose := false
    keep_env := false
    keep_caps := false
    disable_no_new_privs := false
    rl_as := 536870912
    rl_core := 0
    rl_cpu := 600
    rl_fsize := 1048576
    rl_nofile := 32
    rl_nproc := rlNproc
    rl_stack := rlStack
    personality := 0
    clone_newnet := true
    clone_newuser := true
    clone_newns := true
    clone_newpid := true
    clone_newipc := true
    clone_newuts := true
    clone_newcgroup := false
    mode := .standaloneOnce
    is_root_rw := false
    is_silent := false
    skip_setsid := false
    inside_uid := env.getuid
    inside_gid := env.getgid
    outside_uid := env.getuid
    outside_gid := env.getgid
    max_conns_per_ip := 0
    tmpfs_size := 4194304
    mount_proc := true
    cgroup_mem_mount := "/sys/fs/cgroup/memory"
    cgroup_mem_parent := "NSJAIL"
    cgroup_mem_max := 0
    iface_no_lo := false
    iface := none
    iface_vs_ip := "0.0.0.0"
    iface_vs_nm := "255.255.255.0"
    iface_vs_gw := "0.0.0.0"
    envs := []
    mountpts := []
    open_fds := [2, 1, 0]
    uid_mappings := []
    gid_mappings := []
    userArg := none
    groupArg := none
    logfileArg := none
    tmpfsBuf := "size=4194304" }

/-- Outcome of `cmdlineParse` as observed by `main`: the process exited
(via `cmdlineUsage`'s `exit(0)`), aborted fatally (`LOG_F`), returned
`false`, or returned `true` with the finished specification and the
residual command vector. -/
inductive ParseResult where
  | exited (code : Nat)
  | fatal
  | failed
  | ok (st : Nsjconf) (argv : List String)
deriving DecidableEq, Repr

/-- `cmdlineParse`: defaults (whose initializer itself resolves the
`nproc` and `stack` limits against the live environment), the dispatch
loop, the two implicit mount-table head insertions (`/proc` first, then
the root entry, so the root entry ends up at index 0), log-file
initialisation, identity resolution, and the command-vector check. -/
def cmdlineParse (env : Env) (toks : List Token) (rest : List String) : ParseResult :=
  match cmdlineParseRLimit env RLIMIT_NPROC "def" 1,
        cmdlineParseRLimit env RLIMIT_STACK "def" 1 with
  | .ok rlNproc, .ok rlStack =>
    match runTokens env (initConf env rlNproc rlStack) toks with
    | .exited c => .exited c
    | .fatal => .fatal
    | .next st1 =>
      let mounts1 := if st1.mount_proc then procEntry :: st1.mountpts else st1.mountpts
      let st3 : Nsjconf :=
        { st1 with mountpts := rootEntryOf st1.chroot st1.is_root_rw :: mounts1 }
      if env.logInitOk = false then .failed
      else
        match cmdlineParseUid env.passwd st3 st3.userArg with
        | none => .failed
        | some st4 =>
          match cmdlineParseGid env.groups st4 st4.groupArg with
          | none => .failed
          | some st5 =>
            match rest with
            | [] => .exited 0
            | _ :: _ => .ok st5 rest
  | _, _ => .fatal

/-! Bookkeeping used to state order-of-accumulation properties: which
entry (if any) each recognized option occurrence contributes to each
repeatable table. -/

/-- Environment-override entry contributed by a token. -/
def envSel : Token → Option String
  | .envVar v => some v
  | _ => none

/-- Uid-mapping entry contributed by a token. -/
def uidMapSel : Token → Option Mapping
  | .uidMapping v => some (parseMapArg v)
  | _ => none

/-- Gid-mapping entry contributed by a token. -/
def gidMapSel : Token → Option Mapping
  | .gidMapping v => some (parseMapArg v)
  | _ => none

/-- Kept-descriptor entry contributed by a token. -/
def passFdSel : Token → Option Int
  | .passFd v => some (castCInt (strtol v))
  | _ => none

/-- Explicit mount entry contributed by a token. -/
def mountSel : Token → Option Mount
  | .bindmountRo v => some (bindEntry v (Nat.lor (Nat.lor MS_BIND MS_REC) MS_RDONLY))
  | .bindmount v => some (bindEntry v (Nat.lor MS_BIND MS_REC))
  | .tmpfsMount v => some (tmpfsEntry v)
  | _ => none

/-- All environment overrides of a token list, in encounter order. -/
def envsOf (toks : List Token) : List String := toks.filterMap envSel

/-- All uid mappings of a token list, in encounter order. -/
def uidMapsOf (toks : List Token) : List Mapping := toks.filterMap uidMapSel

/-- All gid mappings of a token list, in encounter order. -/
def gidMapsOf (toks : List Token) : List Mapping := toks.filterMap gidMapSel

/-- All `--pass_fd` descriptors of a token list, in encounter order. -/
def passFdsOf (toks : List Token) : List Int := toks.filterMap passFdSel

/-- All explicit mount entries of a token list, in encounter order. -/
def explicitMountsOf (toks : List Token) : List Mount := toks.filterMap mountSel

/-! Observations on a parse outcome. -/

/-- Inside uid of a successful parse. -/
def okInsideUid : ParseResult → Option Nat
  | .ok st _ => some st.inside_uid
  | _ => none

/-- Outside uid of a successful parse. -/
def okOutsideUid : ParseResult → Option Nat
  | .ok st _ => some st.outside_uid
  | _ => none

/-- Mount table of a successful parse. -/
def okMounts : ParseResult → Option (List Mount)
  | .ok st _ => some st.mountpts
  | _ => none

/-- Kept-descriptor list of a successful parse. -/
def okOpenFds : ParseResult → Option (List Int)
  | .ok st _ => some st.open_fds
  | _ => none

/-- Final contents of the shared tmpfs-size buffer of a successful parse. -/
def okTmpfsBuf : ParseResult → Option String
  | .ok st _ => some st.tmpfsBuf
  | _ => none

/-- Position of the first occurrence of a descriptor in a list. -/
def idxOfInt (x : Int) : List Int → Nat
  | [] => 0
  | y :: ys => if x = y then 0 else idxOfInt x ys + 1

/-- Decimal value of a string of ASCII digits. -/
def decValue (s : String) : Nat :=
  s.toList.foldl (fun a c => a * 10 + (c.toNat - 48)) 0

/-! Concrete fixtures used by counterexamples and witnesses: an invoking
user with uid/gid 5, empty name databases, every rlimit pair (100, 200),
and a log sink that initialises fine. -/

/-- Concrete environment for concrete runs. -/
def envC : Env :=
  { getuid := 5, getgid := 5, passwd := [], groups := [],
    rlimits := fun _ => some (100, 200), logInitOk := true }

/-- The default configuration produced for `envC` (both resolved default
limits are the soft ceiling 100). -/
def confC : Nsjconf := initConf envC 100 100

/-- Finished state of a run with no flags at all. -/
def stA : Nsjconf := { confC with mountpts := [rootEntryOf none false, procEntry] }

/-- Tokens of a run with one `--env` and one `--pass_fd` flag. -/
def toksB : List Token := [Token.envVar "A=1", Token.passFd "5"]

/-- Finished state of the `toksB` run. -/
def stB : Nsjconf :=
  { confC with
    envs := ["A=1"]
    open_fds := [5, 2, 1, 0]
    mountpts := [rootEntryOf none false, procEntry] }

/-! Loop invariants of the dispatch pass. -/

/-- A mode step that continues leaves every accumulator untouched. -/
theorem modeStep_next (st : Nsjconf) (v : String) (s2 : Nsjconf)
    (h : modeStep st v = .next s2) :
    s2.envs = st.envs ∧ s2.uid_mappings = st.uid_mappings ∧
    s2.gid_mappings = st.gid_mappings ∧ s2.open_fds = st.open_fds ∧
    s2.mountpts = st.mountpts ∧ s2.tmpfsBuf = st.tmpfsBuf ∧
    s2.tmpfs_size = st.tmpfs_size := by
  unfold modeStep at h
  split at h <;> cases h <;> exact ⟨rfl, rfl, rfl, rfl, rfl, rfl, rfl⟩

set_option maxHeartbeats 1000000 in
set_option linter.unnecessarySimpa false in
/-- The dispatch loop accumulates each repeatable table exactly as the
corresponding tokens prescribe: environment overrides, uid/gid mappings
and explicit mounts are appended in encounter order, kept descriptors are
prepended (hence reversed), and the shared tmpfs-size buffer always holds
the textual form of the current `tmpfs_size`. -/
theorem runTokens_accum (env : Env) (toks : List Token) :
    ∀ st st' : Nsjconf, runTokens env st toks = .next st' →
      st'.envs = st.envs ++ envsOf toks ∧
      st'.uid_mappings = st.uid_mappings ++ uidMapsOf toks ∧
      st'.gid_mappings = st.gid_mappings ++ gidMapsOf toks ∧
      st'.open_fds = (passFdsOf toks).reverse ++ st.open_fds ∧
      st'.mountpts = st.mountpts ++ explicitMountsOf toks ∧
      (st.tmpfsBuf = "size=" ++ toString st.tmpfs_size →
        st'.tmpfsBuf = "size=" ++ toString st'.tmpfs_size) := by
  induction toks with
  | nil =>
    intro st st' h
    simp only [runTokens] at h
    cases h
    simp [envsOf, uidMapsOf, gidMapsOf, passFdsOf, explicitMountsOf]
  | cons t ts ih =>
    intro st st' h
    simp only [runTokens] at h
    cases t
    case help => simp only [processToken] at h; exact StepResult.noConfusion h
    case unknownFlag => simp only [processToken] at h; exact StepResult.noConfusion h
    case modeOpt v =>
      simp only [processToken] at h
      cases hms : modeStep st v with
      | exited c => rw [hms] at h; exact StepResult.noConfusion h
      | fatal => rw [hms] at h; exact StepResult.noConfusion h
      | next s2 =>
        simp only [hms] at h
        obtain ⟨f1, f2, f3, f4, f5, f6, f7⟩ := modeStep_next st v s2 hms
        obtain ⟨h1, h2, h3, h4, h5, h6⟩ := ih _ _ h
        refine ⟨?_, ?_, ?_, ?_, ?_, fun hb => h6 (by simp only [f6, f7]; exact hb)⟩ <;>
          simp [h1, h2, h3, h4, h5, f1, f2, f3, f4, f5, envsOf, uidMapsOf, gidMapsOf,
            passFdsOf, explicitMountsOf, envSel, uidMapSel, gidMapSel, passFdSel, mountSel]
    case rlimitAs v =>
      cases hx : cmdlineParseRLimit env RLIMIT_AS v 1048576 with
      | error e => simp only [processToken, hx] at h; exact StepResult.noConfusion h
      | ok x =>
        simp only [processToken, hx] at h
        obtain ⟨h1, h2, h3, h4, h5, h6⟩ := ih _ _ h
        refine ⟨?_, ?_, ?_, ?_, ?_, fun hb => h6 (by simpa using hb)⟩ <;>
          simp [h1, h2, h3, h4, h5, envsOf, uidMapsOf, gidMapsOf, passFdsOf,
            explicitMountsOf, envSel, uidMapSel, gidMapSel, passFdSel, mountSel]
    case rlimitCore v =>
      cases hx : cmdlineParseRLimit env RLIMIT_CORE v 1048576 with
      | error e => simp only [processToken, hx] at h; exact StepResult.noConfusion h
      | ok x =>
        simp only [processToken, hx] at h
        obtain ⟨h1, h2, h3, h4, h5, h6⟩ := ih _ _ h
        refine ⟨?_, ?_, ?_, ?_, ?_, fun hb => h6 (by simpa using hb)⟩ <;>
          simp [h1, h2, h3, h4, h5, envsOf, uidMapsOf, gidMapsOf, passFdsOf,
            explicitMountsOf, envSel, uidMapSel, gidMapSel, passFdSel, mountSel]
    case rlimitCpu v =>
      cases hx : cmdlineParseRLimit env RLIMIT_CPU v 1 with
      | error e => simp only [processToken, hx] at h; exact StepResult.noConfusion h
      | ok x =>
        simp only [processToken, hx] at h
        obtain ⟨h1, h2, h3, h4, h5, h6⟩ := ih _ _ h
        refine ⟨?_, ?_, ?_, ?_, ?_, fun hb => h6 (by simpa using hb)⟩ <;>
          simp [h1, h2, h3, h4, h5, envsOf, uidMapsOf, gidMapsOf, passFdsOf,
            explicitMountsOf, envSel, uidMapSel, gidMapSel, passFdSel, mountSel]
    case rlimitFsize v =>
      cases hx : cmdlineParseRLimit env RLIMIT_FSIZE v 1048576 with
      | error e => simp only [processToken, hx] at h; exact StepResult.noConfusion h
      | ok x =>
        simp only [processToken, hx] at h
        obtain ⟨h1, h2, h3, h4, h5, h6⟩ := ih _ _ h
        refine ⟨?_, ?_, ?_, ?_, ?_, fun hb => h6 (by simpa using hb)⟩ <;>
          simp [h1, h2, h3, h4, h5, envsOf, uidMapsOf, gidMapsOf, passFdsOf,
            explicitMountsOf, envSel, uidMapSel, gidMapSel, passFdSel, mountSel]
    case rlimitNofile v =>
      cases hx : cmdlineParseRLimit env RLIMIT_NOFILE v 1 with
      | error e => simp only [processToken, hx] at h; exact StepResult.noConfusion h
      | ok x =>
        simp only [processToken, hx] at h
        obtain ⟨h1, h2, h3, h4, h5, h6⟩ := ih _ _ h
        refine ⟨?_, ?_, ?_, ?_, ?_, fun hb => h6 (by simpa using hb)⟩ <;>
          simp [h1, h2, h3, h4, h5, envsOf, uidMapsOf, gidMapsOf, passFdsOf,
            explicitMountsOf, envSel, uidMapSel, gidMapSel, passFdSel, mountSel]
    case rlimitNproc v =>
      cases hx : cmdlineParseRLimit env RLIMIT_NPROC v 1 with
      | error e => simp only [processToken, hx] at h; exact StepResult.noConfusion h
      | ok x =>
        simp only [processToken, hx] at h
        obtain ⟨h1, h2, h3, h4, h5, h6⟩ := ih _ _ h
        refine ⟨?_, ?_, ?_, ?_, ?_, fun hb => h6 (by simpa using hb)⟩ <;>
          simp [h1, h2, h3, h4, h5, envsOf, uidMapsOf, gidMapsOf, passFdsOf,
            explicitMountsOf, envSel, uidMapSel, gidMapSel, passFdSel, mountSel]
    case rlimitStack v =>
      cases hx : cmdlineParseRLimit env RLIMIT_STACK v 1048576 with
      | error e => simp only [processToken, hx] at h; exact StepResult.noConfusion h
      | ok x =>
        simp only [processToken, hx] at h
        obtain ⟨h1, h2, h3, h4, h5, h6⟩ := ih _ _ h
        refine ⟨?_, ?_, ?_, ?_, ?_, fun hb => h6 (by simpa using hb)⟩ <;>
          simp [h1, h2, h3, h4, h5, envsOf, uidMapsOf, gidMapsOf, passFdsOf,
            explicitMountsOf, envSel, uidMapSel, gidMapSel, passFdSel, mountSel]
    all_goals
      simp only [processToken] at h
    all_goals
      obtain ⟨h1, h2, h3, h4, h5, h6⟩ := ih _ _ h
      refine ⟨?_, ?_, ?_, ?_, ?_, fun hb => h6 (by simpa using hb)⟩ <;>
        simp [h1, h2, h3, h4, h5, envsOf, uidMapsOf, gidMapsOf, passFdsOf,
          explicitMountsOf, envSel, uidMapSel, gidMapSel, passFdSel, mountSel]

/-- Identity resolution writes only the uid fields. -/
theorem cmdlineParseUid_fields (db : List (String × Nat)) (c : Nsjconf)
    (s : Option String) (c2 : Nsjconf) (h : cmdlineParseUid db c s = some c2) :
    c2.mountpts = c.mountpts ∧ c2.envs = c.envs ∧ c2.open_fds = c.open_fds ∧
    c2.uid_mappings = c.uid_mappings ∧ c2.gid_mappings = c.gid_mappings ∧
    c2.tmpfsBuf = c.tmpfsBuf ∧ c2.tmpfs_size = c.tmpfs_size ∧
    c2.chroot = c.chroot ∧ c2.is_root_rw = c.is_root_rw ∧
    c2.mount_proc = c.mount_proc ∧ c2.groupArg = c.groupArg := by
  cases s with
  | none =>
    simp only [cmdlineParseUid] at h
    cases h
    exact ⟨rfl, rfl, rfl, rfl, rfl, rfl, rfl, rfl, rfl, rfl, rfl⟩
  | some s =>
    simp only [cmdlineParseUid] at h
    split at h
    · exact Option.noConfusion h
    · split at h
      · cases h
        exact ⟨rfl, rfl, rfl, rfl, rfl, rfl, rfl, rfl, rfl, rfl, rfl⟩
      · split at h
        · exact Option.noConfusion h
        · cases h
          exact ⟨rfl, rfl, rfl, rfl, rfl, rfl, rfl, rfl, rfl, rfl, rfl⟩

/-- Group identity resolution writes only the gid fields. -/
theorem cmdlineParseGid_fields (db : List (String × Nat)) (c : Nsjconf)
    (s : Option String) (c2 : Nsjconf) (h : cmdlineParseGid db c s = some c2) :
    c2.mountpts = c.mountpts ∧ c2.envs = c.envs ∧ c2.open_fds = c.open_fds ∧
    c2.uid_mappings = c.uid_mappings ∧ c2.gid_mappings = c.gid_mappings ∧
    c2.tmpfsBuf = c.tmpfsBuf ∧ c2.tmpfs_size = c.tmpfs_size ∧
    c2.chroot = c.chroot ∧ c2.is_root_rw = c.is_root_rw ∧
    c2.mount_proc = c.mount_proc := by
  cases s with
  | none =>
    simp only [cmdlineParseGid] at h
    cases h
    exact ⟨rfl, rfl, rfl, rfl, rfl, rfl, rfl, rfl, rfl, rfl⟩
  | some s =>
    simp only [cmdlineParseGid] at h
    split at h
    · exact Option.noConfusion h
    · split at h
      · cases h
        exact ⟨rfl, rfl, rfl, rfl, rfl, rfl, rfl, rfl, rfl, rfl⟩
      · split at h
        · exact Option.noConfusion h
        · cases h
          exact ⟨rfl, rfl, rfl, rfl, rfl, rfl, rfl, rfl, rfl, rfl⟩

/-- Structure of every successful parse: the resolved default limits, the
dispatch-loop final state `st1`, the mount table rebuilt from the two
head insertions, the untouched accumulators, and the non-empty residual
command vector. -/
theorem cmdlineParse_ok_struct (env : Env) (toks : List Token) (rest : List String)
    (st : Nsjconf) (argv : List String)
    (h : cmdlineParse env toks rest = .ok st argv) :
    ∃ a b st1,
      cmdlineParseRLimit env RLIMIT_NPROC "def" 1 = .ok a ∧
      cmdlineParseRLimit env RLIMIT_STACK "def" 1 = .ok b ∧
      runTokens env (initConf env a b) toks = .next st1 ∧
      st.mountpts = rootEntryOf st1.chroot st1.is_root_rw ::
        (if st1.mount_proc then procEntry :: st1.mountpts else st1.mountpts) ∧
      st.chroot = st1.chroot ∧ st.is_root_rw = st1.is_root_rw ∧
      st.mount_proc = st1.mount_proc ∧
      st.envs = st1.envs ∧ st.open_fds = st1.open_fds ∧
      st.uid_mappings = st1.uid_mappings ∧ st.gid_mappings = st1.gid_mappings ∧
      st.tmpfsBuf = st1.tmpfsBuf ∧ st.tmpfs_size = st1.tmpfs_size ∧
      argv = rest ∧ rest ≠ [] := by
  unfold cmdlineParse at h
  split at h
  · rename_i rlN rlS hN hS
    dsimp only at h
    split at h
    · exact ParseResult.noConfusion h
    · exact ParseResult.noConfusion h
    · rename_i st1 hRun
      split at h
      · exact ParseResult.noConfusion h
      · rename_i hLog
        split at h
        · exact ParseResult.noConfusion h
        · rename_i st4 hUid
          split at h
          · exact ParseResult.noConfusion h
          · rename_i st5 hGid
            split at h
            · exact ParseResult.noConfusion h
            · rename_i x xs
              injection h with h1 h2
              subst h1
              subst h2
              obtain ⟨u1, u2, u3, u4, u5, u6, u7, u8, u9, u10, _⟩ :=
                cmdlineParseUid_fields _ _ _ _ hUid
              obtain ⟨g1, g2, g3, g4, g5, g6, g7, g8, g9, g10⟩ :=
                cmdlineParseGid_fields _ _ _ _ hGid
              refine ⟨rlN, rlS, st1, hN, hS, hRun, ?_, ?_, ?_, ?_, ?_, ?_, ?_, ?_,
                ?_, ?_, rfl, by simp⟩
              · rw [g1, u1]
              · rw [g8, u8]
              · rw [g9, u9]
              · rw [g10, u10]
              · rw [g2, u2]
              · rw [g3, u3]
              · rw [g4, u4]
              · rw [g5, u5]
              · rw [g6, u6]
              · rw [g7, u7]
  · exact ParseResult.noConfusion h

/-! Arithmetic facts about the numeric token parser, used to settle the
identity-resolution claims on arbitrary decimal tokens. -/

/-- A string without colons splits into itself with an aliasing tail. -/
theorem splitCore_no_colon (cs : List Char) (h : ∀ c ∈ cs, c ≠ ':') :
    splitCore cs = (cs, none) := by
  induction cs with
  | nil => rfl
  | cons c r ih =>
    have hc : ¬(c = ':') := h c (List.mem_cons_self c r)
    have ih2 := ih (fun d hd => h d (List.mem_cons_of_mem c hd))
    simp [splitCore, hc, ih2]

/-- `cmdlineSplitStrByColon` on a colon-free string. -/
theorem split_no_colon (s : String) (h : ∀ c ∈ s.toList, c ≠ ':') :
    cmdlineSplitStrByColon s = (s, none) := by
  unfold cmdlineSplitStrByColon
  rw [splitCore_no_colon s.toList h]
  rfl

/-- Decimal digits have their usual value in base 10. -/
theorem digitVal_ten (c : Char) (h : isDigitChar c = true) :
    digitVal 10 c = some (c.toNat - 48) := by
  have h2 : 48 ≤ c.toNat ∧ c.toNat ≤ 57 := by simpa [isDigitChar] using h
  unfold digitVal hexVal
  rw [if_pos h2]
  have h3 : c.toNat - 48 < 10 := by omega
  simp [h3]

/-- On all-decimal input the digit loop is a decimal fold. -/
theorem parseUnsigned_digits (cs : List Char) (acc : Nat)
    (h : ∀ c ∈ cs, isDigitChar c = true) :
    parseUnsigned 10 cs acc = cs.foldl (fun a c => a * 10 + (c.toNat - 48)) acc := by
  induction cs generalizing acc with
  | nil => rfl
  | cons c r ih =>
    have hc := digitVal_ten c (h c (List.mem_cons_self c r))
    simp only [parseUnsigned, hc, List.foldl_cons]
    exact ih _ (fun d hd => h d (List.mem_cons_of_mem c hd))

/-- A digit is not whitespace. -/
theorem isSpaceChar_of_digit (c : Char) (hc : isDigitChar c = true) :
    isSpaceChar c = false := by
  simp only [isDigitChar, decide_eq_true_eq] at hc
  simp only [isSpaceChar, decide_eq_false_iff_not]
  omega

/-- The sign scanner leaves a digit-headed string alone. -/
theorem signSplit_digit (c : Char) (r : List Char) (hc : isDigitChar c = true) :
    signSplit (c :: r) = (false, c :: r) := by
  have h2 : 48 ≤ c.toNat ∧ c.toNat ≤ 57 := by simpa [isDigitChar] using hc
  have hneg : ¬(c = '-') := fun he => by rw [he] at h2; exact absurd h2 (by decide)
  have hpos : ¬(c = '+') := fun he => by rw [he] at h2; exact absurd h2 (by decide)
  simp only [signSplit]
  rw [if_neg hneg, if_neg hpos]

/-- `strtoull` of a decimal token with a nonzero leading digit and value
below 2^64 is exactly its decimal value, with no range error. -/
theorem strtoull_decimal (s : String) (c : Char) (r : List Char)
    (hcr : s.toList = c :: r)
    (hd : ∀ d ∈ s.toList, isDigitChar d = true)
    (h0 : c ≠ '0')
    (hlt : decValue s < U64) :
    strtoull s = (decValue s, false) := by
  have hcd : isDigitChar c = true := hd c (by rw [hcr]; exact List.mem_cons_self c r)
  have hd2 : ∀ d ∈ c :: r, isDigitChar d = true := by rw [← hcr]; exact hd
  have hdv : decValue s = (c :: r).foldl (fun a x => a * 10 + (x.toNat - 48)) 0 := by
    unfold decValue
    rw [hcr]
  have hnat : natOfCStr (c :: r) = decValue s := by
    simp only [natOfCStr]
    rw [if_neg h0, parseUnsigned_digits (c :: r) 0 hd2, ← hdv]
  unfold strtoull
  dsimp only
  rw [hcr, List.dropWhile_cons, isSpaceChar_of_digit c hcd]
  simp only [Bool.false_eq_true, if_false]
  rw [signSplit_digit c r hcd]
  dsimp only
  rw [hnat]
  rw [if_neg (by omega)]
  simp

/-- A numeric rlimit token whose conversion reported no range error
resolves to the 64-bit product of its converted value and the unit
multiplier, whatever that product wrapped to. -/
theorem parseRLimit_numeric (env : Env) (res : Nat) (tok : String) (mul : Nat)
    (cur mx : Nat) (hq : env.rlimits res = some (cur, mx))
    (hm : strcaseeq tok "max" = false) (hd : strcaseeq tok "def" = false)
    (hn : cmdlineIsANumber tok = true) (hr : (strtoull tok).2 = false) :
    cmdlineParseRLimit env res tok mul = .ok ((strtoull tok).1 * mul % U64) := by
  unfold cmdlineParseRLimit
  rw [hq]
  simp [hm, hd, hn, hr]

/-! The claims. -/

/-- Claim C1, counterexample: invoked by a user with uid 5, `-u 1000`
(no colon) resolves the inside uid to 1000 but leaves the outside uid at
the invoking user's default 5 — it does not become the resolved inside
id as the claim states. -/
theorem claim1_counterexample :
    okInsideUid (cmdlineParse envC [Token.user "1000"] ["/bin/sh"]) = some 1000 ∧
    okOutsideUid (cmdlineParse envC [Token.user "1000"] ["/bin/sh"]) = some 5 ∧
    (5 : Nat) ≠ 1000 :=
  ⟨by decide, by decide, by decide⟩

/-- Claim C1, amended: for a `--user`/`--group` token without a colon,
identity resolution sets only the inside id; the outside id keeps
whatever value it had before (the invoking user's default). -/
theorem claim1_theorem (db : List (String × Nat)) (conf : Nsjconf) (s : String)
    (hnc : (cmdlineSplitStrByColon s).2 = none) (c2 : Nsjconf)
    (h : cmdlineParseUid db conf (some s) = some c2) :
    c2.outside_uid = conf.outside_uid := by
  simp only [cmdlineParseUid] at h
  cases hres : resolveIdTok db (cmdlineSplitStrByColon s).1 with
  | none =>
    simp only [hres] at h
    exact Option.noConfusion h
  | some u =>
    simp only [hres, hnc] at h
    injection h with h2
    subst h2
    rfl

/-- Claim C1, witness instantiating the amended theorem at `-u 1000`. -/
theorem claim1_witness :
    ({ confC with inside_uid := 1000 } : Nsjconf).outside_uid = confC.outside_uid :=
  claim1_theorem [] confC "1000" (by decide) _ (by decide)

/-- Claim C2: the code contradicts it — a malformed mode letter, an
unknown flag (reported as `'?'` by getopt) and a missing command vector
all terminate through `cmdlineUsage`, which calls `exit(0)`: the process
exits with status 0, not a non-zero failure status (the `return false`
statements after those calls are unreachable). -/
theorem claim2_theorem :
    cmdlineParse envC [Token.modeOpt "x"] ["/bin/sh"] = .exited 0 ∧
    cmdlineParse envC [Token.unknownFlag] ["/bin/sh"] = .exited 0 ∧
    cmdlineParse envC [] [] = .exited 0 :=
  ⟨rfl, rfl, rfl⟩

/-- Claim C3, counterexample: with no chroot and `--tmpfsmount /dev/shm
--tmpfs_size 100`, the implicit root tmpfs entry sits at index 0 with a
literal empty options string, not one reflecting the final configured
size 100 (the `--tmpfsmount` entry does carry the shared buffer). -/
theorem claim3_counterexample :
    okMounts (cmdlineParse envC [Token.tmpfsMount "/dev/shm", Token.tmpfsSize "100"]
        ["/bin/sh"]) =
      some [rootEntryOf none false, procEntry, tmpfsEntry "/dev/shm"] ∧
    okTmpfsBuf (cmdlineParse envC [Token.tmpfsMount "/dev/shm", Token.tmpfsSize "100"]
        ["/bin/sh"]) = some "size=100" ∧
    renderOptions "size=100" (rootEntryOf none false).options = "" ∧
    ("" : String) ≠ "size=100" :=
  ⟨by decide, by decide, by decide, by decide⟩

/-- Claim C3, amended: after a successful parse the shared size buffer
holds exactly the textual form of the final configured `tmpfs_size`, so
every mount entry whose options field is the shared buffer — exactly the
`--tmpfsmount` entries — reflects the final size even when `--tmpfs_size`
came later; the implicit root tmpfs entry instead carries a literal empty
options string. -/
theorem claim3_theorem (env : Env) (toks : List Token) (rest : List String)
    (st : Nsjconf) (argv : List String)
    (h : cmdlineParse env toks rest = .ok st argv) :
    st.tmpfsBuf = "size=" ++ toString st.tmpfs_size ∧
    (∀ m ∈ st.mountpts, m.options = MntOptions.sharedTmpfsSz →
      renderOptions st.tmpfsBuf m.options = "size=" ++ toString st.tmpfs_size) ∧
    (st.chroot = none →
      st.mountpts.head? = some (rootEntryOf none st.is_root_rw) ∧
      (rootEntryOf none st.is_root_rw).options = MntOptions.lit "") := by
  obtain ⟨a, b, st1, hN, hS, hRun, hM, hC, hR, hP, hE, hO, hU, hG, hB, hT, hArgv, hNe⟩ :=
    cmdlineParse_ok_struct env toks rest st argv h
  have hinit : (initConf env a b).tmpfsBuf =
      "size=" ++ toString (initConf env a b).tmpfs_size := by
    show ("size=4194304" : String) = "size=" ++ toString (4194304 : Nat)
    decide
  have hbuf := (runTokens_accum env toks _ _ hRun).2.2.2.2.2 hinit
  refine ⟨?_, ?_, ?_⟩
  · rw [hB, hT]
    exact hbuf
  · intro m _ ho
    rw [ho]
    show st.tmpfsBuf = _
    rw [hB, hT]
    exact hbuf
  · intro hcn
    have hcn2 : st1.chroot = none := hC.symm.trans hcn
    constructor
    · rw [hM, hcn2, hR]
      rfl
    · rfl

/-- Claim C3, witness instantiating the amended theorem on a flagless run. -/
theorem claim3_witness : stA.tmpfsBuf = "size=" ++ toString stA.tmpfs_size :=
  (claim3_theorem envC [] ["/bin/sh"] stA ["/bin/sh"] (by decide)).1

/-- Claim C4, counterexample: with a user literally named `1000` whose
uid is 555 in the name database, resolving the purely numeric token
`"1000"` yields 555, not 1000 — the database lookup takes precedence
over the numeric reading. -/
theorem claim4_counterexample :
    (cmdlineParseUid [("1000", 555)] confC (some "1000")).map Nsjconf.inside_uid =
      some 555 ∧
    (555 : Nat) ≠ 1000 :=
  ⟨by decide, by decide⟩

/-- Claim C4, amended: a purely numeric decimal token (nonzero leading
digit, value below 2^32) resolves to exactly its decimal value provided
the name database has no entry bearing that name; name-database lookup
takes precedence over numeric interpretation. -/
theorem claim4_theorem (db : List (String × Nat)) (conf : Nsjconf) (s : String)
    (hdb : lookupDb db s = none)
    (hne : s.toList ≠ [])
    (hdig : ∀ c ∈ s.toList, isDigitChar c = true)
    (hl : s.toList.head? ≠ some '0')
    (hlt : decValue s < U32) :
    (cmdlineParseUid db conf (some s)).map Nsjconf.inside_uid = some (decValue s) := by
  obtain ⟨c, r, hcr⟩ := List.exists_cons_of_ne_nil hne
  have h0 : c ≠ '0' := by
    rw [hcr] at hl
    simpa using hl
  have hnum : cmdlineIsANumber s = true := by
    unfold cmdlineIsANumber
    rw [List.all_eq_true]
    intro d hdm
    simp [hdig d hdm]
  have hsplit : cmdlineSplitStrByColon s = (s, none) := by
    apply split_no_colon
    intro d hdm
    have hd2 := hdig d hdm
    simp only [isDigitChar, decide_eq_true_eq] at hd2
    intro he
    rw [he] at hd2
    exact absurd hd2 (by decide)
  have hst : strtoull s = (decValue s, false) :=
    strtoull_decimal s c r hcr hdig h0 (Nat.lt_trans hlt (by decide))
  have hres : resolveIdTok db s = some (decValue s) := by
    simp only [resolveIdTok, hdb, hnum, if_true, hst]
    simp [Nat.mod_eq_of_lt hlt]
  simp [cmdlineParseUid, hsplit, hres]

/-- Claim C4, witness instantiating the amended theorem at `"1000"` with
an empty database. -/
theorem claim4_witness :
    (cmdlineParseUid [] confC (some "1000")).map Nsjconf.inside_uid =
      some (decValue "1000") :=
  claim4_theorem [] confC "1000" (by decide) (by decide) (by decide) (by decide)
    (by decide)

/-- Claim C5, counterexample: the numeric check accepts only decimal
digits and the letter `x`, so the hexadecimal token `"0xff"` is rejected
as fatal instead of being accepted as 255 times the multiplier. -/
theorem claim5_counterexample :
    cmdlineParseRLimit envC RLIMIT_AS "0xff" 1048576 = .error () ∧
    (Except.error () : Except Unit Nat) ≠ .ok (255 * 1048576) :=
  ⟨rfl, fun h => Except.noConfusion h⟩

/-- Claim C5, amended: for a non-`max`/`def` token, the resolver is fatal
exactly when some character is neither a decimal digit nor `x`; a token
of digits and `x` whose conversion reported no range error is accepted as
its `strtoull` value times the multiplier in 64-bit arithmetic (so
`"0x10"` is accepted as 16·mul while `"0xff"` is fatal). -/
theorem claim5_theorem (env : Env) (res : Nat) (tok : String) (mul : Nat)
    (cur mx : Nat) (hq : env.rlimits res = some (cur, mx))
    (hm : strcaseeq tok "max" = false) (hd : strcaseeq tok "def" = false) :
    (cmdlineIsANumber tok = false → cmdlineParseRLimit env res tok mul = .error ()) ∧
    (cmdlineIsANumber tok = true → (strtoull tok).2 = false →
      cmdlineParseRLimit env res tok mul = .ok ((strtoull tok).1 * mul % U64)) := by
  constructor
  · intro hn
    unfold cmdlineParseRLimit
    rw [hq]
    simp [hm, hd, hn]
  · intro hn hr
    exact parseRLimit_numeric env res tok mul cur mx hq hm hd hn hr

/-- Claim C5, witness instantiating the amended theorem at `"0x10"`. -/
theorem claim5_witness : cmdlineParseRLimit envC RLIMIT_AS "0x10" 2 = .ok 32 := by
  have h := (claim5_theorem envC RLIMIT_AS "0x10" 2 100 200 (by decide) (by decide)
    (by decide)).2 (by decide) (by decide)
  have h2 : (strtoull "0x10").1 * 2 % U64 = 32 := by decide
  rw [h2] at h
  exact h

/-- Claim C6, counterexample: the token 17592186044416 (2^44) with the
megabyte multiplier 2^20 overflows 64 bits; the resolver stores the
wrapped value 0 instead of failing — the `val == ULLONG_MAX && errno`
check does not catch multiplication overflow. -/
theorem claim6_counterexample :
    cmdlineParseRLimit envC RLIMIT_AS "17592186044416" 1048576 = .ok 0 ∧
    (Except.ok 0 : Except Unit Nat) ≠ .error () :=
  ⟨rfl, fun h => Except.noConfusion h⟩

/-- Claim C6, amended: when the converted value times the multiplier
overflows 64 bits but the conversion itself reported no range error, the
resolution is NOT fatal: the product wrapped modulo 2^64 is stored as the
ceiling. -/
theorem claim6_theorem (env : Env) (res : Nat) (tok : String) (mul : Nat)
    (cur mx : Nat) (hq : env.rlimits res = some (cur, mx))
    (hm : strcaseeq tok "max" = false) (hd : strcaseeq tok "def" = false)
    (hn : cmdlineIsANumber tok = true) (hr : (strtoull tok).2 = false)
    (_hov : U64 ≤ (strtoull tok).1 * mul) :
    cmdlineParseRLimit env res tok mul = .ok ((strtoull tok).1 * mul % U64) :=
  parseRLimit_numeric env res tok mul cur mx hq hm hd hn hr

/-- Claim C6, witness instantiating the amended theorem at the overflow
input 2^44 times 2^20. -/
theorem claim6_witness :
    cmdlineParseRLimit envC RLIMIT_AS "17592186044416" 1048576 = .ok 0 := by
  have h := claim6_theorem envC RLIMIT_AS "17592186044416" 1048576 100 200 (by decide)
    (by decide) (by decide) (by decide) (by decide) (by decide)
  have h2 : (strtoull "17592186044416").1 * 1048576 % U64 = 0 := by decide
  rw [h2] at h
  exact h

/-- Claim C7: whenever the live-limit query succeeds, the token `max`
(case-insensitively) resolves to the queried hard ceiling and the token
`def` (case-insensitively) to the queried soft ceiling. -/
theorem claim7_theorem (env : Env) (res : Nat) (tok : String) (mul : Nat)
    (cur mx : Nat) (hq : env.rlimits res = some (cur, mx)) :
    (strcaseeq tok "max" = true → cmdlineParseRLimit env res tok mul = .ok mx) ∧
    (strcaseeq tok "def" = true → cmdlineParseRLimit env res tok mul = .ok cur) := by
  constructor
  · intro h
    unfold cmdlineParseRLimit
    rw [hq]
    simp [h]
  · intro h
    have h2 : tok.toList.map toLowerAscii = "def".toList.map toLowerAscii := by
      simpa [strcaseeq] using h
    have hm : strcaseeq tok "max" = false := by
      simp only [strcaseeq]
      rw [beq_eq_false_iff_ne]
      rw [h2]
      decide
    unfold cmdlineParseRLimit
    rw [hq]
    simp [hm, h]

/-- Claim C7, witness: `"MAX"` yields the hard ceiling 200 and `"def"`
the soft ceiling 100 of the concrete environment. -/
theorem claim7_witness :
    cmdlineParseRLimit envC RLIMIT_AS "MAX" 7 = .ok 200 ∧
    cmdlineParseRLimit envC RLIMIT_AS "def" 7 = .ok 100 :=
  ⟨(claim7_theorem envC RLIMIT_AS "MAX" 7 100 200 (by decide)).1 (by decide),
   (claim7_theorem envC RLIMIT_AS "def" 7 100 200 (by decide)).2 (by decide)⟩

/-- Claim C8: in every successful parse the root-establishing entry (a
bind of the chroot source onto `/` when given, otherwise a tmpfs onto
`/`) sits at index 0 of the mount table, and the conditional `/proc`
entry, when enabled, sits behind it at index 1, ahead of all explicit
entries. -/
theorem claim8_theorem (env : Env) (toks : List Token) (rest : List String)
    (st : Nsjconf) (argv : List String)
    (h : cmdlineParse env toks rest = .ok st argv) :
    st.mountpts.head? = some (rootEntryOf st.chroot st.is_root_rw) ∧
    (st.mount_proc = true → st.mountpts[1]? = some procEntry) := by
  obtain ⟨a, b, st1, hN, hS, hRun, hM, hC, hR, hP, _⟩ :=
    cmdlineParse_ok_struct env toks rest st argv h
  constructor
  · rw [hM, hC, hR]
    rfl
  · intro hmp
    rw [hP] at hmp
    rw [hM]
    simp [hmp]

/-- Claim C8, witness instantiating the theorem on a flagless run. -/
theorem claim8_witness :
    stA.mountpts.head? = some (rootEntryOf stA.chroot stA.is_root_rw) :=
  (claim8_theorem envC [] ["/bin/sh"] stA ["/bin/sh"] (by decide)).1

/-- Claim C9, counterexample: `--pass_fd 5 --pass_fd 6` yields the
descriptor list 6, 5, 2, 1, 0 — the first flag occurrence is NOT first:
pass_fd entries are head-inserted, so they end up in reverse encounter
order. -/
theorem claim9_counterexample :
    okOpenFds (cmdlineParse envC [Token.passFd "5", Token.passFd "6"] ["/bin/sh"]) =
      some [6, 5, 2, 1, 0] ∧
    idxOfInt 6 [6, 5, 2, 1, 0] < idxOfInt 5 [6, 5, 2, 1, 0] :=
  ⟨by decide, by decide⟩

/-- Claim C9, amended: environment overrides, uid/gid mappings and
explicit bind/tmpfs mounts accumulate in command-line encounter order
(mounts behind the two implicit entries), but `--pass_fd` descriptors are
prepended, so the finished list holds them in reverse encounter order
ahead of the initial stderr/stdout/stdin entries. -/
theorem claim9_theorem (env : Env) (toks : List Token) (rest : List String)
    (st : Nsjconf) (argv : List String)
    (h : cmdlineParse env toks rest = .ok st argv) :
    st.envs = envsOf toks ∧
    st.uid_mappings = uidMapsOf toks ∧
    st.gid_mappings = gidMapsOf toks ∧
    st.open_fds = (passFdsOf toks).reverse ++ [2, 1, 0] ∧
    st.mountpts = rootEntryOf st.chroot st.is_root_rw ::
      ((if st.mount_proc then [procEntry] else []) ++ explicitMountsOf toks) := by
  obtain ⟨a, b, st1, hN, hS, hRun, hM, hC, hR, hP, hE, hO, hU, hG, hB, hT, hArgv, hNe⟩ :=
    cmdlineParse_ok_struct env toks rest st argv h
  obtain ⟨a1, a2, a3, a4, a5, _⟩ := runTokens_accum env toks _ _ hRun
  refine ⟨?_, ?_, ?_, ?_, ?_⟩
  · rw [hE, a1]
    simp [initConf]
  · rw [hU, a2]
    simp [initConf]
  · rw [hG, a3]
    simp [initConf]
  · rw [hO, a4]
    simp [initConf]
  · have a5b : st1.mountpts = explicitMountsOf toks := by
      rw [a5]
      simp [initConf]
    rw [hM, hC, hR, hP, a5b]
    cases hmp : st1.mount_proc <;> simp [hmp]

/-- Claim C9, witness instantiating the amended theorem on a run with one
`--env` and one `--pass_fd` flag. -/
theorem claim9_witness : stB.envs = envsOf toksB :=
  (claim9_theorem envC toksB ["/bin/sh"] stB ["/bin/sh"] (by decide)).1

/-- Claim C10: an identity token with an empty head — the empty string or
a token starting with a colon such as `":1000"` — resolves successfully
(provided no database entry is named by the empty string): the empty head
passes the numeric check vacuously, `strtoull` converts it to 0, and the
inside id becomes 0. -/
theorem claim10_theorem (db : List (String × Nat)) (conf : Nsjconf)
    (hdb : lookupDb db "" = none) :
    cmdlineParseUid db conf (some "") = some { conf with inside_uid := 0 } ∧
    (cmdlineParseUid db conf (some ":1000")).isSome = true ∧
    (cmdlineParseUid db conf (some ":1000")).map Nsjconf.inside_uid = some 0 := by
  have hsplit : cmdlineSplitStrByColon "" = ("", none) := by decide
  have hsplit2 : cmdlineSplitStrByColon ":1000" = ("", some "1000") := by decide
  have hres : resolveIdTok db "" = some 0 := by
    unfold resolveIdTok
    rw [hdb]
    decide
  have hchar : ∃ w, cmdlineParseUid db conf (some ":1000") =
      some { conf with inside_uid := 0, outside_uid := w } := by
    cases hlk : lookupDb db "1000" with
    | none =>
      have hres2 : resolveIdTok db "1000" = some 1000 := by
        unfold resolveIdTok
        rw [hlk]
        decide
      exact ⟨1000, by simp [cmdlineParseUid, hsplit2, hres, hres2]⟩
    | some g =>
      have hres2 : resolveIdTok db "1000" = some g := by
        unfold resolveIdTok
        rw [hlk]
      exact ⟨g, by simp [cmdlineParseUid, hsplit2, hres, hres2]⟩
  obtain ⟨w, hw⟩ := hchar
  refine ⟨by simp [cmdlineParseUid, hsplit, hres], ?_, ?_⟩
  · rw [hw]
    rfl
  · rw [hw]
    rfl

/-- Claim C10, witness: empty database, empty token. -/
theorem claim10_witness :
    cmdlineParseUid [] confC (some "") = some { confC with inside_uid := 0 } :=
  (claim10_theorem [] confC (by decide)).1

end Nsjail
